import Mathlib

/-!
Verification model of the pamir-ai-soundcard codec control driver
(TLV320AIC3204 over I2C).  The definitions below are a shallow embedding
of the C driver: the percentage-to-register curve computations are pure
functions, and the I2C bus is modelled as an explicit state (selected
page, register memory, transaction log) threaded through each operation,
with a failure oracle deciding which bus transaction fails.

Two versions of the driver exist in the repository; the volume path is
identical in both, the input-gain path differs (a disjoint-range and an
overlapping-range formulation).  Both are embedded.
-/

/-- Saturation of a requested percentage to [0,100], as done at the top of
pamir_ai_i2c_sound_set_volume / set_input_gain (the `< 0` branch of the C
code is dead for an unsigned byte argument and is omitted). -/
def clamp100 (v : Nat) : Nat :=
  if v > 100 then 100 else v

/-- Forward volume curve of pamir_ai_i2c_sound_set_volume (identical in both
driver versions): maps a clamped percentage to the pair
(headphone/line driver gain byte, DAC volume byte). -/
def encode_volume (volume : Nat) : Nat × Nat :=
  if volume = 0 then
    (0x40, 0x00)
  else if volume ≤ 20 then
    (0x00 ||| (0x3A - ((volume - 1) * (0x3A - 0x00) / 19)), 0xA0)
  else if volume ≤ 60 then
    (0x00 ||| (((volume - 21) * 0x14) / 39), 0x00)
  else
    let hp := 0x00 ||| (0x14 + ((volume - 61) * (0x1D - 0x14)) / 39)
    let dac := if volume > 90 then 0x04 + ((volume - 91) * (0x10 - 0x04)) / 9 else 0x00
    (hp, dac)

/-- Fallback estimate of pamir_ai_i2c_sound_get_volume when the register
bytes match no known tier: a best guess from the headphone gain bits alone
(`hp` is already masked to the 6 gain bits). -/
def fallback_guess (hp : Nat) : Nat :=
  if hp = 0 then 21
  else if hp ≤ 0x14 then 21 + (hp * 39) / 0x14
  else if hp ≤ 0x1D then 61 + ((hp - 0x14) * 39) / (0x1D - 0x14)
  else 20

/-- Inverse volume curve of pamir_ai_i2c_sound_get_volume (identical in both
driver versions): mute-bit check, gain-bit masking, tier dispatch in source
order, and the final saturation to 100. -/
def decode_volume (hpRaw dacByte : Nat) : Nat :=
  let isMuted := hpRaw &&& 0x40 ≠ 0
  let hp := hpRaw &&& 0x3F
  let volume :=
    if isMuted then 0
    else if 0x04 ≤ dacByte ∧ dacByte ≤ 0x10 then
      91 + ((dacByte - 0x04) * 9) / (0x10 - 0x04)
    else if 0x14 ≤ hp ∧ hp ≤ 0x1D then
      let v := 61 + ((hp - 0x14) * 39) / (0x1D - 0x14)
      if v > 90 then 90 else v
    else if hp ≤ 0x14 ∧ dacByte = 0x00 then
      21 + (hp * 39) / 0x14
    else if hp ≤ 0x3A ∧ dacByte = 0xA0 then
      1 + ((0x3A - hp) * 19) / (0x3A - 0x00)
    else
      fallback_guess hp
  if volume > 100 then 100 else volume

/-- Forward input-gain curve of pamir_ai_i2c_sound_set_input_gain in the
disjoint-range driver version: percents 0-19 map to 0x68..0x29, percents
20-100 map to 0x00..0x28. -/
def encode_gain (gain : Nat) : Nat :=
  if gain < 20 then
    0x68 - ((gain * (0x68 - 0x29)) / 19)
  else
    ((gain - 20) * 0x28) / 80

/-- Inverse input-gain curve of pamir_ai_i2c_sound_get_input_gain in the
disjoint-range driver version (the reserved bit of the read byte is masked
off first). -/
def decode_gain (adcRaw : Nat) : Nat :=
  let adc := adcRaw &&& 0x7F
  if 0x68 ≤ adc then 0
  else if adc ≤ 0x28 then 20 + ((adc * 80) / 0x28)
  else ((0x68 - adc) * 19) / (0x68 - 0x29)

/-- Forward input-gain curve of pamir_ai_i2c_sound_set_input_gain in the
overlapping-range driver version: percents 0-20 map to 0x68..0x00 and
percents 21-100 map to 0x00..0x28, so register 0x00 is produced by both
percent 20 and percent 21. -/
def encode_gain_overlap (gain : Nat) : Nat :=
  if gain ≤ 20 then
    0x68 - ((gain * (0x68 - 0x00)) / 20)
  else
    ((gain - 20) * 0x28) / 80

/-- Inverse input-gain curve of pamir_ai_i2c_sound_get_input_gain in the
overlapping-range driver version (branch order as in the source; the final
`100` branch is unreachable for byte inputs). -/
def decode_gain_overlap (adcRaw : Nat) : Nat :=
  let adc := adcRaw &&& 0x7F
  if 0x68 ≤ adc then 0
  else if 0x00 < adc then ((0x68 - adc) * 20) / 0x68
  else if adc ≤ 0x28 then 20 + ((adc * 80) / 0x28)
  else 100

/-- A bus transaction issued to the I2C client: a single-byte register
write or read, as performed by i2c_smbus_write_byte_data /
i2c_smbus_read_byte_data. -/
inductive Tx where
  | wr (reg val : Nat) : Tx
  | rd (reg : Nat) : Tx
deriving DecidableEq, Repr

/-- State of the codec seen through the bus: the currently selected page
(register 0x00 is the page-select register on every page), the register
memory per page, a running count of issued transactions (used by the
failure oracle), and the ordered log of issued transactions. -/
structure I2CState where
  page : Nat
  mem : Nat → Nat → Nat
  txCount : Nat
  txLog : List Tx

/-- The failure oracle: decides, per transaction index, whether the bus
transaction fails and with which negative error code. -/
def Oracle : Type := Nat → Option Int

/-- The always-succeeding bus. -/
def noFail : Oracle := fun _ => none

/-- One i2c_smbus_write_byte_data call.  The attempted transaction is
always logged; on success a write to register 0x00 selects the page and
any other write updates the current page's memory. -/
def i2c_write (fail : Oracle) (s : I2CState) (reg v : Nat) : I2CState × Except Int Unit :=
  match fail s.txCount with
  | some e =>
    ({ s with txCount := s.txCount + 1, txLog := s.txLog ++ [Tx.wr reg v] }, Except.error e)
  | none =>
    ({ page := if reg = 0 then v else s.page,
       mem := if reg = 0 then s.mem else
         fun p r => if p = s.page ∧ r = reg then v else s.mem p r,
       txCount := s.txCount + 1,
       txLog := s.txLog ++ [Tx.wr reg v] }, Except.ok ())

/-- One i2c_smbus_read_byte_data call: returns the byte stored at the
given register of the currently selected page. -/
def i2c_read (fail : Oracle) (s : I2CState) (reg : Nat) : I2CState × Except Int Nat :=
  match fail s.txCount with
  | some e =>
    ({ s with txCount := s.txCount + 1, txLog := s.txLog ++ [Tx.rd reg] }, Except.error e)
  | none =>
    ({ s with txCount := s.txCount + 1, txLog := s.txLog ++ [Tx.rd reg] },
     Except.ok (s.mem s.page reg))

/-- A chain of register writes that aborts on the first transport error,
as the C code does by checking `ret < 0` after every
i2c_smbus_write_byte_data call. -/
def write_seq (fail : Oracle) (s : I2CState) : List (Nat × Nat) → I2CState × Except Int Unit
  | [] => (s, Except.ok ())
  | rv :: rest =>
    let r := i2c_write fail s rv.1 rv.2
    match r.2 with
    | Except.error e => (r.1, Except.error e)
    | Except.ok _ => write_seq fail r.1 rest

/-- Driver-private data: the cached volume and input-gain percentages of
struct pamir_ai_i2c_sound_data. -/
structure DriverData where
  volume : Nat
  inputGain : Nat
deriving DecidableEq, Repr

/-- The device state right after devm allocation in probe: all-zero
registers, no transactions issued yet. -/
def initState : I2CState :=
  { page := 0, mem := fun _ _ => 0, txCount := 0, txLog := [] }

/-- The driver data as initialized by probe (volume 50, input gain 50). -/
def d50 : DriverData := { volume := 50, inputGain := 50 }

/-- pamir_ai_i2c_sound_set_volume: clamps the requested percentage, stores
it into the cache, encodes it, then issues the write chain (page 1,
headphone/line-out gains 0x10-0x13, page 0, DAC volumes 0x41/0x42).
The cache update happens before the writes, exactly as in the source. -/
def set_volume (fail : Oracle) (d : DriverData) (s : I2CState) (volume : Nat) :
    DriverData × I2CState × Except Int Unit :=
  let v := clamp100 volume
  let hp := (encode_volume v).1
  let dac := (encode_volume v).2
  ({ d with volume := v },
   write_seq fail s
     [(0x00, 0x01), (0x10, hp), (0x11, hp), (0x12, hp), (0x13, hp),
      (0x00, 0x00), (0x41, dac), (0x42, dac)])

/-- pamir_ai_i2c_sound_set_input_gain (disjoint-range version): clamps,
stores into the cache, encodes, then issues the write chain (page 0, ADC
volumes 0x53/0x54).  The cache update precedes the writes as in the
source. -/
def set_input_gain (fail : Oracle) (d : DriverData) (s : I2CState) (gain : Nat) :
    DriverData × I2CState × Except Int Unit :=
  let g := clamp100 gain
  let adc := encode_gain g
  ({ d with inputGain := g },
   write_seq fail s [(0x00, 0x00), (0x53, adc), (0x54, adc)])

/-- pamir_ai_i2c_sound_get_volume: selects page 1, reads the left
headphone gain (0x10), selects page 0, reads the left DAC volume (0x41),
decodes the pair and stores the estimate into the cache.  The byte
narrowing of the int return value to u8 is the `&&& 0xFF` mask. -/
def get_volume (fail : Oracle) (d : DriverData) (s : I2CState) :
    DriverData × I2CState × Except Int Unit :=
  let w1 := i2c_write fail s 0x00 0x01
  match w1.2 with
  | Except.error e => (d, w1.1, Except.error e)
  | Except.ok _ =>
    let r1 := i2c_read fail w1.1 0x10
    match r1.2 with
    | Except.error e => (d, r1.1, Except.error e)
    | Except.ok hpRet =>
      let w2 := i2c_write fail r1.1 0x00 0x00
      match w2.2 with
      | Except.error e => (d, w2.1, Except.error e)
      | Except.ok _ =>
        let r2 := i2c_read fail w2.1 0x41
        match r2.2 with
        | Except.error e => (d, r2.1, Except.error e)
        | Except.ok dacRet =>
          ({ d with volume := decode_volume (hpRet &&& 0xFF) (dacRet &&& 0xFF) },
           r2.1, Except.ok ())

/-- pamir_ai_i2c_sound_get_input_gain (disjoint-range version): selects
page 0, reads the left ADC volume (0x53), decodes it (the reserved-bit
mask lives inside decode_gain) and stores the estimate into the cache. -/
def get_input_gain (fail : Oracle) (d : DriverData) (s : I2CState) :
    DriverData × I2CState × Except Int Unit :=
  let w1 := i2c_write fail s 0x00 0x00
  match w1.2 with
  | Except.error e => (d, w1.1, Except.error e)
  | Except.ok _ =>
    let r1 := i2c_read fail w1.1 0x53
    match r1.2 with
    | Except.error e => (d, r1.1, Except.error e)
    | Except.ok adcRet =>
      ({ d with inputGain := decode_gain adcRet }, r1.1, Except.ok ())

/-- The fixed initialization table of the disjoint-range driver version
(init_sequence), transcribed entry for entry in source order. -/
def init_sequence : List (Nat × Nat) :=
  [(0x00, 0x00), (0x01, 0x01),
   (0x00, 0x00), (0x0b, 0x81), (0x0c, 0x84), (0x12, 0x81), (0x13, 0x84),
   (0x19, 0x07), (0x1a, 0x81), (0x34, 0x10),
   (0x00, 0x01), (0x02, 0x09), (0x01, 0x08), (0x02, 0x01), (0x21, 0x00), (0x7b, 0x01),
   (0x00, 0x01), (0x14, 0x25), (0x0c, 0x08), (0x0d, 0x08), (0x0e, 0x08), (0x0f, 0x08),
   (0x09, 0x3c), (0x10, 0x07), (0x11, 0x07), (0x12, 0x07), (0x13, 0x07),
   (0x00, 0x01), (0x34, 0x80), (0x36, 0x80), (0x37, 0x80), (0x39, 0x80),
   (0x3b, 0x0f), (0x3c, 0x0f),
   (0x00, 0x00), (0x51, 0xc0), (0x52, 0x00),
   (0x00, 0x00), (0x53, 0x23), (0x54, 0x23), (0x41, 0x30), (0x42, 0x30),
   (0x00, 0x00), (0x41, 0x00), (0x42, 0x00), (0x3f, 0xd6), (0x40, 0x00)]

/-- The initialization loop of pamir_ai_i2c_sound_probe: write every table
entry in order, aborting with the transport error on the first failing
write. -/
def run_init (fail : Oracle) : I2CState × Except Int Unit :=
  write_seq fail initState init_sequence

/-- register_access_store on already-parsed integers: bounds-check all
three parameters to [0,255] (rejecting with -EINVAL = -22 before any bus
transaction), then select the page via register 0x00 and write the value
to the register. -/
def register_access_store (fail : Oracle) (s : I2CState) (page reg value : Int) :
    I2CState × Except Int Unit :=
  if page < 0 ∨ page > 255 ∨ reg < 0 ∨ reg > 255 ∨ value < 0 ∨ value > 255 then
    (s, Except.error (-22))
  else
    write_seq fail s [(0x00, page.toNat), (reg.toNat, value.toNat)]

/-- register_access_show on already-parsed integers: bounds-check page and
register to [0,255] (rejecting with -EINVAL = -22 before any bus
transaction), then select the page via register 0x00 and read the
register. -/
def register_access_show (fail : Oracle) (s : I2CState) (page reg : Int) :
    I2CState × Except Int Nat :=
  if page < 0 ∨ page > 255 ∨ reg < 0 ∨ reg > 255 then
    (s, Except.error (-22))
  else
    let w1 := i2c_write fail s 0x00 page.toNat
    match w1.2 with
    | Except.error e => (w1.1, Except.error e)
    | Except.ok _ => i2c_read fail w1.1 reg.toNat

/-- Cached volume observed after set_volume followed by get_volume on a
never-failing bus, from arbitrary prior driver data and device state. -/
def set_then_get_volume (d : DriverData) (s : I2CState) (p : Nat) : Nat :=
  let r1 := set_volume noFail d s p
  ((get_volume noFail r1.1 r1.2.1).1).volume

/-- Pure round trip of the volume curve: decode the byte pair produced by
the encoder for a given percent. -/
def decode_encode (p : Nat) : Nat :=
  decode_volume (encode_volume p).1 (encode_volume p).2

/-- The tier table of spec section 4.3 for the forward volume curve, with
the high tiers amended to what the code computes: the headphone byte
follows one linear segment 0x14..0x1D across percents 61-100 (span 39),
reaching 0x1D only at 100, while the DAC byte is 0x00 on 61-90 and linear
0x04..0x10 on 91-100.  Every interior step is the spec's truncating
interpolation value = low + (percent - range_low) * (high - low) / span. -/
def encode_volume_table (p : Nat) : Nat × Nat :=
  if p = 0 then (0x40, 0x00)
  else if p ≤ 20 then (0x3A - (p - 1) * (0x3A - 0x00) / 19, 0xA0)
  else if p ≤ 60 then (0x00 + (p - 21) * (0x14 - 0x00) / 39, 0x00)
  else if p ≤ 90 then (0x14 + (p - 61) * (0x1D - 0x14) / 39, 0x00)
  else (0x14 + (p - 61) * (0x1D - 0x14) / 39, 0x04 + (p - 91) * (0x10 - 0x04) / 9)

/-- Helper: a write chain on a bus whose first failing transaction is the
`i`-th one issues exactly the first `i+1` writes of the chain, in order,
and aborts with that transaction's error. -/
theorem write_seq_abort (fail : Oracle) (l : List (Nat × Nat)) (s : I2CState) (i : Nat)
    (e : Int) (hi : i < l.length)
    (hok : ∀ j, j < i → fail (s.txCount + j) = none)
    (hf : fail (s.txCount + i) = some e) :
    (write_seq fail s l).2 = Except.error e ∧
    (write_seq fail s l).1.txLog
      = s.txLog ++ (l.take (i + 1)).map (fun rv => Tx.wr rv.1 rv.2) := by
  induction l generalizing s i with
  | nil => simp at hi
  | cons rv rest ih =>
    cases i with
    | zero =>
      have hf0 : fail s.txCount = some e := by simpa using hf
      simp [write_seq, i2c_write, hf0]
    | succ i =>
      have h0 : fail s.txCount = none := by
        simpa using hok 0 (Nat.succ_pos i)
      simp only [write_seq, i2c_write, h0]
      have hok' : ∀ j, j < i →
          fail (s.txCount + 1 + j) = none := by
        intro j hj
        have h := hok (j + 1) (by omega)
        rw [show s.txCount + 1 + j = s.txCount + (j + 1) by omega]
        exact h
      have hf' : fail (s.txCount + 1 + i) = some e := by
        rw [show s.txCount + 1 + i = s.txCount + (i + 1) by omega]
        exact hf
      have hi' : i < rest.length := by simpa using hi
      have hrec := ih (s :=
        { page := if rv.1 = 0 then rv.2 else s.page,
          mem := if rv.1 = 0 then s.mem else
            fun p r => if p = s.page ∧ r = rv.1 then rv.2 else s.mem p r,
          txCount := s.txCount + 1,
          txLog := s.txLog ++ [Tx.wr rv.1 rv.2] }) (i := i) hi' hok' hf'
      refine ⟨hrec.1, ?_⟩
      rw [hrec.2]
      simp [List.append_assoc]

/-- Helper: a write chain on a bus that does not fail during it performs
every write of the chain, in order, and succeeds. -/
theorem write_seq_ok (fail : Oracle) (l : List (Nat × Nat)) (s : I2CState)
    (hok : ∀ j, j < l.length → fail (s.txCount + j) = none) :
    (write_seq fail s l).2 = Except.ok () ∧
    (write_seq fail s l).1.txLog = s.txLog ++ l.map (fun rv => Tx.wr rv.1 rv.2) := by
  induction l generalizing s with
  | nil => simp [write_seq]
  | cons rv rest ih =>
    have h0 : fail s.txCount = none := by
      simpa using hok 0 (by simp)
    simp only [write_seq, i2c_write, h0]
    have hok' : ∀ j, j < rest.length →
        fail (s.txCount + 1 + j) = none := by
      intro j hj
      have h := hok (j + 1) (by simpa using Nat.succ_lt_succ hj)
      rw [show s.txCount + 1 + j = s.txCount + (j + 1) by omega]
      exact h
    have hrec := ih (s :=
      { page := if rv.1 = 0 then rv.2 else s.page,
        mem := if rv.1 = 0 then s.mem else
          fun p r => if p = s.page ∧ r = rv.1 then rv.2 else s.mem p r,
        txCount := s.txCount + 1,
        txLog := s.txLog ++ [Tx.wr rv.1 rv.2] }) hok'
    refine ⟨hrec.1, ?_⟩
    rw [hrec.2]
    simp [List.append_assoc]

/-- C2 counterexample: the claim says percents 91-100 produce a headphone
byte fixed at the maximum 0x1D, but encode_volume at 91 produces 0x1A
(the linear segment reaches 0x1D only at 100). -/
theorem c2_counterexample :
    (encode_volume 91).1 = 0x1A ∧ (encode_volume 91).1 ≠ 0x1D := by
  decide

/-- C2 (amended): for every percent 1-100 the encoder produces exactly the
byte pair of the tier table, with the 61-100 headphone segment one linear
ramp 0x14..0x1D of span 39 (so tier 61-90 ends at 0x1A, and on 91-100 the
headphone byte keeps following that ramp instead of sitting at 0x1D while
the DAC byte ramps 0x04..0x10); tiers 1-20 and 21-60 are exactly as the
claim states, and all interior steps use truncating division. -/
theorem c2_encode_table (p : Nat) (hlo : 1 ≤ p) (hhi : p ≤ 100) :
    encode_volume p = encode_volume_table p ∧
    (p ≤ 20 → (encode_volume p).2 = 0xA0 ∧ (encode_volume p).1 ≤ 0x3A) ∧
    (21 ≤ p → p ≤ 60 → (encode_volume p).2 = 0x00 ∧ (encode_volume p).1 ≤ 0x14) ∧
    (61 ≤ p → p ≤ 90 → (encode_volume p).2 = 0x00 ∧
      0x14 ≤ (encode_volume p).1 ∧ (encode_volume p).1 ≤ 0x1A) ∧
    (91 ≤ p → 0x04 ≤ (encode_volume p).2 ∧ (encode_volume p).2 ≤ 0x10 ∧
      0x1A ≤ (encode_volume p).1 ∧ (encode_volume p).1 ≤ 0x1D) := by
  have h0 : ∀ p, p < 101 → 1 ≤ p → encode_volume p = encode_volume_table p := by
    decide
  have h1 : ∀ p, p < 101 →
      (p ≤ 20 → 1 ≤ p → (encode_volume p).2 = 0xA0 ∧ (encode_volume p).1 ≤ 0x3A) := by
    decide
  have h2 : ∀ p, p < 101 →
      (21 ≤ p → p ≤ 60 → (encode_volume p).2 = 0x00 ∧ (encode_volume p).1 ≤ 0x14) := by
    decide
  have h3 : ∀ p, p < 101 →
      (61 ≤ p → p ≤ 90 → (encode_volume p).2 = 0x00 ∧
        0x14 ≤ (encode_volume p).1 ∧ (encode_volume p).1 ≤ 0x1A) := by
    decide
  have h4 : ∀ p, p < 101 →
      (91 ≤ p → p ≤ 100 → 0x04 ≤ (encode_volume p).2 ∧ (encode_volume p).2 ≤ 0x10 ∧
        0x1A ≤ (encode_volume p).1 ∧ (encode_volume p).1 ≤ 0x1D) := by
    decide
  refine ⟨h0 p (by omega) hlo, fun h => h1 p (by omega) h hlo,
    fun ha hb => h2 p (by omega) ha hb, fun ha hb => h3 p (by omega) ha hb,
    fun h => h4 p (by omega) h hhi⟩

/-- C2 witness: the amended theorem instantiated at percent 40. -/
theorem c2_witness :
    encode_volume 40 = encode_volume_table 40 ∧
    ((40 : Nat) ≤ 20 → (encode_volume 40).2 = 0xA0 ∧ (encode_volume 40).1 ≤ 0x3A) ∧
    (21 ≤ (40 : Nat) → (40 : Nat) ≤ 60 →
      (encode_volume 40).2 = 0x00 ∧ (encode_volume 40).1 ≤ 0x14) ∧
    (61 ≤ (40 : Nat) → (40 : Nat) ≤ 90 → (encode_volume 40).2 = 0x00 ∧
      0x14 ≤ (encode_volume 40).1 ∧ (encode_volume 40).1 ≤ 0x1A) ∧
    (91 ≤ (40 : Nat) → 0x04 ≤ (encode_volume 40).2 ∧ (encode_volume 40).2 ≤ 0x10 ∧
      0x1A ≤ (encode_volume 40).1 ∧ (encode_volume 40).1 ≤ 0x1D) :=
  c2_encode_table 40 (by decide) (by decide)

/-- C5: in the disjoint-range gain formulation the round-trip is exact at
both range boundaries, the registers for percents 0-19 stay in 0x29..0x68,
the registers for percents 20-100 stay in 0x00..0x28, and the two register
ranges never collide. -/
theorem c5_gain_disjoint (g1 g2 : Nat) (h1 : g1 ≤ 19) (h2lo : 20 ≤ g2) (h2hi : g2 ≤ 100) :
    decode_gain (encode_gain 0) = 0 ∧
    decode_gain (encode_gain 100) = 100 ∧
    (0x29 ≤ encode_gain g1 ∧ encode_gain g1 ≤ 0x68) ∧
    encode_gain g2 ≤ 0x28 ∧
    encode_gain g1 ≠ encode_gain g2 := by
  have hlow : 0x29 ≤ encode_gain g1 ∧ encode_gain g1 ≤ 0x68 := by
    unfold encode_gain
    rw [if_pos (by omega)]
    omega
  have hhigh : encode_gain g2 ≤ 0x28 := by
    unfold encode_gain
    rw [if_neg (by omega)]
    omega
  exact ⟨by decide, by decide, hlow, hhigh, by omega⟩

/-- C5 witness: the theorem instantiated at the percent pair (5, 60). -/
theorem c5_witness :
    decode_gain (encode_gain 0) = 0 ∧
    decode_gain (encode_gain 100) = 100 ∧
    (0x29 ≤ encode_gain 5 ∧ encode_gain 5 ≤ 0x68) ∧
    encode_gain 60 ≤ 0x28 ∧
    encode_gain 5 ≠ encode_gain 60 :=
  c5_gain_disjoint 5 60 (by decide) (by decide) (by decide)

/-- C6 counterexample: in the overlapping-range formulation the round-trip
at gain 20 is exact (register 0x00 decodes back to 20), contradicting the
claim that decode_gain(encode_gain(20)) differs from 20. -/
theorem c6_counterexample :
    decode_gain_overlap (encode_gain_overlap 20) = 20 := by
  decide

/-- C6 (amended): the ambiguity of the overlapping-range formulation shows
up one step above the boundary, not at 20: percents 20 and 21 both encode
to register 0x00, the round-trip is exact at 20, and it fails at 21
(decoding back to 20). -/
theorem c6_gain_overlap_ambiguity :
    encode_gain_overlap 20 = 0x00 ∧
    encode_gain_overlap 21 = 0x00 ∧
    decode_gain_overlap (encode_gain_overlap 21) = 20 ∧
    decode_gain_overlap (encode_gain_overlap 21) ≠ 21 := by
  decide

/-- C9: encoding volume 0 yields the headphone byte 0x40 (mute bit set,
gain bits all zero) with DAC byte 0x00, and decoding any byte pair whose
headphone byte has the mute bit set yields exactly 0. -/
theorem c9_mute (hpB dacB : Nat) (h : hpB &&& 0x40 ≠ 0) :
    encode_volume 0 = (0x40, 0x00) ∧
    0x40 &&& 0x40 ≠ 0 ∧
    0x40 &&& 0x3F = 0 ∧
    decode_volume hpB dacB = 0 := by
  refine ⟨by decide, by decide, by decide, ?_⟩
  simp [decode_volume, h]

/-- C9 witness: the theorem instantiated at the byte pair (0x44, 0x09). -/
theorem c9_witness :
    encode_volume 0 = (0x40, 0x00) ∧
    0x40 &&& 0x40 ≠ 0 ∧
    0x40 &&& 0x3F = 0 ∧
    decode_volume 0x44 0x09 = 0 :=
  c9_mute 0x44 0x09 (by decide)

/-- C3: on an unmuted byte pair, decode_volume dispatches tiers in the
priority order of the source (DAC boost band first, then the high
headphone band clamped at 90, then the medium band, then the low band with
DAC attenuation, then a best guess from the headphone gain bits alone that
defaults to 20), each guarded tier landing in its percent range; a set
mute bit forces 0 regardless of the other bytes. -/
theorem c3_decode_priority (hpB dacB : Nat) :
    (hpB &&& 0x40 ≠ 0 → decode_volume hpB dacB = 0) ∧
    (hpB &&& 0x40 = 0 →
      ((0x04 ≤ dacB ∧ dacB ≤ 0x10) →
        91 ≤ decode_volume hpB dacB ∧ decode_volume hpB dacB ≤ 100) ∧
      (¬(0x04 ≤ dacB ∧ dacB ≤ 0x10) →
        (0x14 ≤ hpB &&& 0x3F ∧ hpB &&& 0x3F ≤ 0x1D) →
        61 ≤ decode_volume hpB dacB ∧ decode_volume hpB dacB ≤ 90) ∧
      (¬(0x04 ≤ dacB ∧ dacB ≤ 0x10) →
        ¬(0x14 ≤ hpB &&& 0x3F ∧ hpB &&& 0x3F ≤ 0x1D) →
        (hpB &&& 0x3F ≤ 0x14 ∧ dacB = 0x00) →
        21 ≤ decode_volume hpB dacB ∧ decode_volume hpB dacB ≤ 60) ∧
      (¬(0x04 ≤ dacB ∧ dacB ≤ 0x10) →
        ¬(0x14 ≤ hpB &&& 0x3F ∧ hpB &&& 0x3F ≤ 0x1D) →
        ¬(hpB &&& 0x3F ≤ 0x14 ∧ dacB = 0x00) →
        (hpB &&& 0x3F ≤ 0x3A ∧ dacB = 0xA0) →
        1 ≤ decode_volume hpB dacB ∧ decode_volume hpB dacB ≤ 20) ∧
      (¬(0x04 ≤ dacB ∧ dacB ≤ 0x10) →
        ¬(0x14 ≤ hpB &&& 0x3F ∧ hpB &&& 0x3F ≤ 0x1D) →
        ¬(hpB &&& 0x3F ≤ 0x14 ∧ dacB = 0x00) →
        ¬(hpB &&& 0x3F ≤ 0x3A ∧ dacB = 0xA0) →
        decode_volume hpB dacB = fallback_guess (hpB &&& 0x3F) ∧
        (0x1D < hpB &&& 0x3F → decode_volume hpB dacB = 20))) := by
  have hand : hpB &&& 0x3F ≤ 63 := Nat.and_le_right
  refine ⟨fun hm => ?_, fun hm => ⟨fun hb => ?_, fun hb hh => ?_, fun hb hh hmed => ?_,
    fun hb hh hmed hlo => ?_, fun hb hh hmed hlo => ?_⟩⟩
  · simp only [decode_volume, fallback_guess]
    split_ifs <;> omega
  · simp only [decode_volume, fallback_guess]
    split_ifs <;> omega
  · simp only [decode_volume, fallback_guess]
    split_ifs <;> omega
  · simp only [decode_volume, fallback_guess]
    split_ifs <;> omega
  · simp only [decode_volume, fallback_guess]
    split_ifs <;> omega
  · simp only [decode_volume, fallback_guess]
    split_ifs <;> omega

/-- C3 witness: the high headphone tier conjunct at the unmuted byte pair
(0x16, 0x00). -/
theorem c3_witness :
    61 ≤ decode_volume 0x16 0x00 ∧ decode_volume 0x16 0x00 ≤ 90 :=
  ((c3_decode_priority 0x16 0x00).2 (by decide)).2.1 (by decide) (by decide)

/-- C10: the cached percentages stay in [0,100]: the setters cache exactly
the clamped percent (so at most 100), and the estimates the getters
compute from arbitrary register bytes are at most 100 before being
cached. -/
theorem c10_cache_bounds (fail : Oracle) (d : DriverData) (s : I2CState)
    (v hpB dacB adcB : Nat) :
    (set_volume fail d s v).1.volume = clamp100 v ∧
    (set_input_gain fail d s v).1.inputGain = clamp100 v ∧
    clamp100 v ≤ 100 ∧
    decode_volume hpB dacB ≤ 100 ∧
    decode_gain adcB ≤ 100 := by
  refine ⟨rfl, rfl, ?_, ?_, ?_⟩
  · unfold clamp100
    split <;> omega
  · have hand : hpB &&& 0x3F ≤ 63 := Nat.and_le_right
    simp only [decode_volume, fallback_guess]
    split_ifs <;> omega
  · have hand : adcB &&& 0x7F ≤ 127 := Nat.and_le_right
    simp only [decode_gain]
    split_ifs <;> omega

/-- C1 counterexample: on a bus that fails every transaction, set_volume
returns the transport error, yet the cached volume has already been
overwritten with the new clamped percent (80) instead of keeping its
pre-call value (50). -/
theorem c1_counterexample :
    (set_volume (fun _ => some (-5)) d50 initState 80).2.2 = Except.error (-5) ∧
    (set_volume (fun _ => some (-5)) d50 initState 80).1.volume = 80 ∧
    d50.volume = 50 ∧
    (set_volume (fun _ => some (-5)) d50 initState 80).1.volume ≠ d50.volume := by
  exact ⟨rfl, rfl, rfl, by decide⟩

/-- C1 (amended): set_volume and set_input_gain store the clamped percent
into the cache unconditionally, before issuing any register write; if the
first failing bus transaction is the i-th one of the operation's write
chain, the operation returns exactly that transport error, but the cache
nevertheless holds the new clamped percent rather than its pre-call
value. -/
theorem c1_cache_and_error (fail : Oracle) (d : DriverData) (s : I2CState)
    (v i : Nat) (e : Int)
    (hok : ∀ j, j < i → fail (s.txCount + j) = none)
    (hf : fail (s.txCount + i) = some e) :
    ((set_volume fail d s v).1.volume = clamp100 v ∧
     (set_input_gain fail d s v).1.inputGain = clamp100 v) ∧
    (i < 8 → (set_volume fail d s v).2.2 = Except.error e) ∧
    (i < 3 → (set_input_gain fail d s v).2.2 = Except.error e) := by
  refine ⟨⟨rfl, rfl⟩, fun hi => ?_, fun hi => ?_⟩
  · have h := write_seq_abort fail
      [(0x00, 0x01), (0x10, (encode_volume (clamp100 v)).1),
       (0x11, (encode_volume (clamp100 v)).1), (0x12, (encode_volume (clamp100 v)).1),
       (0x13, (encode_volume (clamp100 v)).1), (0x00, 0x00),
       (0x41, (encode_volume (clamp100 v)).2), (0x42, (encode_volume (clamp100 v)).2)]
      s i e (by simpa using hi) hok hf
    exact h.1
  · have h := write_seq_abort fail
      [(0x00, 0x00), (0x53, encode_gain (clamp100 v)), (0x54, encode_gain (clamp100 v))]
      s i e (by simpa using hi) hok hf
    exact h.1

/-- C1 witness: the amended theorem on a bus whose second transaction
fails with -5, starting from the probe-time state, requesting percent
42. -/
theorem c1_witness :
    ((set_volume (fun n => if n = 1 then some (-5) else none) d50 initState 42).1.volume = 42 ∧
     (set_input_gain (fun n => if n = 1 then some (-5) else none) d50 initState 42).1.inputGain
       = 42) ∧
    ((1 : Nat) < 8 →
      (set_volume (fun n => if n = 1 then some (-5) else none) d50 initState 42).2.2
        = Except.error (-5)) ∧
    ((1 : Nat) < 3 →
      (set_input_gain (fun n => if n = 1 then some (-5) else none) d50 initState 42).2.2
        = Except.error (-5)) :=
  c1_cache_and_error (fun n => if n = 1 then some (-5) else none) d50 initState 42 1 (-5)
    (by decide) (by decide)

/-- C7: the initialization sequencer writes the table entries strictly in
order; if the bus fails first at table index i (with any error e), exactly
the writes for indices 0..i have been issued — so the last issued
transaction is the failing register/value step itself — and the sequencer
returns e; on a bus that never fails during the sequence, every table
entry is written exactly once in table order and the sequencer succeeds. -/
theorem c7_init_sequencer (fail : Oracle) :
    (∀ i e, i < init_sequence.length → (∀ j, j < i → fail j = none) → fail i = some e →
      (run_init fail).2 = Except.error e ∧
      (run_init fail).1.txLog
        = (init_sequence.take (i + 1)).map (fun rv => Tx.wr rv.1 rv.2)) ∧
    ((∀ j, j < init_sequence.length → fail j = none) →
      (run_init fail).2 = Except.ok () ∧
      (run_init fail).1.txLog = init_sequence.map (fun rv => Tx.wr rv.1 rv.2)) := by
  constructor
  · intro i e hi hok hf
    have hok' : ∀ j, j < i → fail (initState.txCount + j) = none := by
      intro j hj
      show fail (0 + j) = none
      rw [Nat.zero_add]
      exact hok j hj
    have hf' : fail (initState.txCount + i) = some e := by
      show fail (0 + i) = some e
      rw [Nat.zero_add]
      exact hf
    have h := write_seq_abort fail init_sequence initState i e hi hok' hf'
    refine ⟨h.1, ?_⟩
    show (write_seq fail initState init_sequence).1.txLog = _
    rw [h.2]
    show [] ++ _ = _
    exact List.nil_append _
  · intro hok
    have hok' : ∀ j, j < init_sequence.length → fail (initState.txCount + j) = none := by
      intro j hj
      show fail (0 + j) = none
      rw [Nat.zero_add]
      exact hok j hj
    have h := write_seq_ok fail init_sequence initState hok'
    refine ⟨h.1, ?_⟩
    show (write_seq fail initState init_sequence).1.txLog = _
    rw [h.2]
    show [] ++ _ = _
    exact List.nil_append _

/-- C7 witness: a bus failing exactly at table index 10 with error -121
makes the sequencer abort with -121 after issuing precisely the first 11
table writes. -/
theorem c7_witness :
    (run_init (fun n => if n = 10 then some (-121) else none)).2 = Except.error (-121) ∧
    (run_init (fun n => if n = 10 then some (-121) else none)).1.txLog
      = (init_sequence.take (10 + 1)).map (fun rv => Tx.wr rv.1 rv.2) :=
  (c7_init_sequencer (fun n => if n = 10 then some (-121) else none)).1 10 (-121)
    (by decide) (by decide) (by decide)

/-- C8: the raw register access paths reject any parsed parameter outside
[0,255] with -EINVAL before issuing a single bus transaction (the device
state is returned untouched); on in-range parameters and a bus that does
not fail, the write path issues exactly the page-select write to register
0x00 followed by the single register write, and the read path issues the
page-select write followed by the single register read, returning the byte
stored at that page and register. -/
theorem c8_register_access (fail : Oracle) (s : I2CState) (page reg value : Int) :
    ((page < 0 ∨ page > 255 ∨ reg < 0 ∨ reg > 255 ∨ value < 0 ∨ value > 255) →
      register_access_store fail s page reg value = (s, Except.error (-22))) ∧
    ((page < 0 ∨ page > 255 ∨ reg < 0 ∨ reg > 255) →
      register_access_show fail s page reg = (s, Except.error (-22))) ∧
    (¬(page < 0 ∨ page > 255 ∨ reg < 0 ∨ reg > 255 ∨ value < 0 ∨ value > 255) →
      fail s.txCount = none → fail (s.txCount + 1) = none →
      (register_access_store fail s page reg value).2 = Except.ok () ∧
      (register_access_store fail s page reg value).1.txLog
        = s.txLog ++ [Tx.wr 0 page.toNat, Tx.wr reg.toNat value.toNat]) ∧
    (¬(page < 0 ∨ page > 255 ∨ reg < 0 ∨ reg > 255) →
      fail s.txCount = none → fail (s.txCount + 1) = none →
      (register_access_show fail s page reg).2 = Except.ok (s.mem page.toNat reg.toNat) ∧
      (register_access_show fail s page reg).1.txLog
        = s.txLog ++ [Tx.wr 0 page.toNat, Tx.rd reg.toNat]) := by
  refine ⟨fun h => ?_, fun h => ?_, fun h h0 h1 => ?_, fun h h0 h1 => ?_⟩
  · simp only [register_access_store]
    rw [if_pos h]
  · simp only [register_access_show]
    rw [if_pos h]
  · simp only [register_access_store]
    rw [if_neg h]
    simp [write_seq, i2c_write, h0, h1]
  · simp only [register_access_show]
    rw [if_neg h]
    simp [i2c_write, i2c_read, h0, h1]

/-- C8 witness: page 256 and register -1 are rejected with -EINVAL and no
transaction, while the in-range write (page 0, register 0x41, value 0) on
a healthy bus issues exactly the page select and the register write. -/
theorem c8_witness :
    register_access_store noFail initState 256 1 1 = (initState, Except.error (-22)) ∧
    register_access_show noFail initState 0 (-1) = (initState, Except.error (-22)) ∧
    ((register_access_store noFail initState 0 0x41 0).2 = Except.ok () ∧
     (register_access_store noFail initState 0 0x41 0).1.txLog
       = initState.txLog ++ [Tx.wr 0 (0 : Int).toNat,
           Tx.wr (0x41 : Int).toNat (0 : Int).toNat]) :=
  ⟨(c8_register_access noFail initState 256 1 1).1 (by decide),
   (c8_register_access noFail initState 0 (-1) 0).2.1 (by decide),
   (c8_register_access noFail initState 0 0x41 0).2.2.1 (by decide) rfl rfl⟩

/-- Helper: on a never-failing bus, a get_volume right after a set_volume
reads back exactly the bytes the setter wrote, so the freshly cached value
is the decode of the encode of the clamped percent. -/
theorem set_then_get_volume_spec (d : DriverData) (s : I2CState) (p : Nat) :
    set_then_get_volume d s p
      = decode_volume ((encode_volume (clamp100 p)).1 &&& 0xFF)
          ((encode_volume (clamp100 p)).2 &&& 0xFF) := by
  simp [set_then_get_volume, set_volume, get_volume, write_seq, i2c_write, i2c_read, noFail]

/-- C4: decode of encode stays in the tier of the original percent for the
sample points 1, 21, 40, 61, 91, 100, and through the bus model (reads
returning the bytes last written) set_volume 0 then get_volume caches
exactly 0, set_volume 100 then get_volume caches a value in [91,100], and
set_volume 50 then get_volume caches a value in [21,60]. -/
theorem c4_round_trip (d : DriverData) (s : I2CState) :
    (1 ≤ decode_encode 1 ∧ decode_encode 1 ≤ 20) ∧
    (21 ≤ decode_encode 21 ∧ decode_encode 21 ≤ 60) ∧
    (21 ≤ decode_encode 40 ∧ decode_encode 40 ≤ 60) ∧
    (61 ≤ decode_encode 61 ∧ decode_encode 61 ≤ 90) ∧
    (91 ≤ decode_encode 91 ∧ decode_encode 91 ≤ 100) ∧
    (91 ≤ decode_encode 100 ∧ decode_encode 100 ≤ 100) ∧
    set_then_get_volume d s 0 = 0 ∧
    (91 ≤ set_then_get_volume d s 100 ∧ set_then_get_volume d s 100 ≤ 100) ∧
    (21 ≤ set_then_get_volume d s 50 ∧ set_then_get_volume d s 50 ≤ 60) := by
  simp only [set_then_get_volume_spec d s]
  decide

